import Mathlib

/-!
# Verification of the Potree 2.0 point-cloud reader

A shallow embedding of `py_potree_data_reader` (the Potree 2.0 decoder:
bit deinterleaver, Morton position/color decoders, hierarchy parser,
node decoder and the two reader entry points), together with theorems
settling the specification's claims against the code.

Bytes are modelled as natural numbers below 256, byte strings as
`List Nat`.  Machine integers are `Nat`/`Int` with explicit `% 2^w`
where the numpy `uint32` arithmetic can overflow.  Fallible operations
return `Option`/`Except`.
-/

namespace PotreeReader

/-- Embedding of `dealign24b` from
`potree_brotli_compressed_pc_reader.py` (lines 38-55): removes two of
every three bits, compacting every third bit of the low 24 bits of the
input into the low byte of the result.  The mask/shift schedule is
taken verbatim from the source. -/
def dealign24b (morton_code : Nat) : Nat :=
  let x0 := morton_code
  let x1 := ((x0 &&& 0b001000001000001000001000) >>> 2) |||
            ((x0 &&& 0b000001000001000001000001) >>> 0)
  let x2 := ((x1 &&& 0b000011000000000011000000) >>> 4) |||
            ((x1 &&& 0b000000000011000000000011) >>> 0)
  let x3 := ((x2 &&& 0b000000001111000000000000) >>> 8) |||
            ((x2 &&& 0b000000000000000000001111) >>> 0)
  let x4 := ((x3 &&& 0b000000000000000000000000) >>> 16) |||
            ((x3 &&& 0b000000000000000011111111) >>> 0)
  x4

/-- `&&&` with a mask below `2^24` ignores everything above the low 24
bits of the other operand. -/
theorem land_mod_two_pow_24 (v c : Nat) (h : c < 2 ^ 24) :
    (v % 2 ^ 24) &&& c = v &&& c := by
  apply Nat.eq_of_testBit_eq
  intro i
  rw [Nat.testBit_and, Nat.testBit_and, Nat.testBit_mod_two_pow]
  by_cases hi : i < 24
  · simp [hi]
  · have hc : c.testBit i = false := by
      apply Nat.testBit_lt_two_pow
      exact lt_of_lt_of_le h (Nat.pow_le_pow_right (by norm_num) (le_of_not_lt hi))

    simp [hi, hc]

/-- Bits of the step-1 left mask `0b001000001000001000001000`. -/
theorem testBit_mask1a (i : Nat) :
    Nat.testBit 2130440 i =
      (decide (i = 3) || decide (i = 9) || decide (i = 15) || decide (i = 21)) := by
  by_cases h : i < 22
  · revert h
    revert i
    decide
  · rw [Nat.testBit_lt_two_pow (lt_of_lt_of_le (by norm_num : (2130440 : Nat) < 2 ^ 22)
      (Nat.pow_le_pow_right (by norm_num) (le_of_not_lt h)))]
    symm
    simp only [Bool.or_eq_false_iff, decide_eq_false_iff_not]
    omega

/-- Bits of the step-1 right mask `0b000001000001000001000001`. -/
theorem testBit_mask1b (i : Nat) :
    Nat.testBit 266305 i =
      (decide (i = 0) || decide (i = 6) || decide (i = 12) || decide (i = 18)) := by
  by_cases h : i < 22
  · revert h
    revert i
    decide
  · rw [Nat.testBit_lt_two_pow (lt_of_lt_of_le (by norm_num : (266305 : Nat) < 2 ^ 22)
      (Nat.pow_le_pow_right (by norm_num) (le_of_not_lt h)))]
    symm
    simp only [Bool.or_eq_false_iff, decide_eq_false_iff_not]
    omega

/-- Bits of the step-2 left mask `0b000011000000000011000000`. -/
theorem testBit_mask2a (i : Nat) :
    Nat.testBit 786624 i =
      (decide (i = 6) || decide (i = 7) || decide (i = 18) || decide (i = 19)) := by
  by_cases h : i < 22
  · revert h
    revert i
    decide
  · rw [Nat.testBit_lt_two_pow (lt_of_lt_of_le (by norm_num : (786624 : Nat) < 2 ^ 22)
      (Nat.pow_le_pow_right (by norm_num) (le_of_not_lt h)))]
    symm
    simp only [Bool.or_eq_false_iff, decide_eq_false_iff_not]
    omega

/-- Bits of the step-2 right mask `0b000000000011000000000011`. -/
theorem testBit_mask2b (i : Nat) :
    Nat.testBit 12291 i =
      (decide (i = 0) || decide (i = 1) || decide (i = 12) || decide (i = 13)) := by
  by_cases h : i < 22
  · revert h
    revert i
    decide
  · rw [Nat.testBit_lt_two_pow (lt_of_lt_of_le (by norm_num : (12291 : Nat) < 2 ^ 22)
      (Nat.pow_le_pow_right (by norm_num) (le_of_not_lt h)))]
    symm
    simp only [Bool.or_eq_false_iff, decide_eq_false_iff_not]
    omega

/-- Bits of the step-3 left mask `0b000000001111000000000000`. -/
theorem testBit_mask3a (i : Nat) :
    Nat.testBit 61440 i =
      (decide (i = 12) || decide (i = 13) || decide (i = 14) || decide (i = 15)) := by
  by_cases h : i < 22
  · revert h
    revert i
    decide
  · rw [Nat.testBit_lt_two_pow (lt_of_lt_of_le (by norm_num : (61440 : Nat) < 2 ^ 22)
      (Nat.pow_le_pow_right (by norm_num) (le_of_not_lt h)))]
    symm
    simp only [Bool.or_eq_false_iff, decide_eq_false_iff_not]
    omega

/-- Bits of the step-3 right mask `0b000000000000000000001111`. -/
theorem testBit_mask3b (i : Nat) :
    Nat.testBit 15 i =
      (decide (i = 0) || decide (i = 1) || decide (i = 2) || decide (i = 3)) := by
  by_cases h : i < 22
  · revert h
    revert i
    decide
  · rw [Nat.testBit_lt_two_pow (lt_of_lt_of_le (by norm_num : (15 : Nat) < 2 ^ 22)
      (Nat.pow_le_pow_right (by norm_num) (le_of_not_lt h)))]
    symm
    simp only [Bool.or_eq_false_iff, decide_eq_false_iff_not]
    omega

/-- Bits of the final mask `0b000000000000000011111111`. -/
theorem testBit_mask255 (i : Nat) : Nat.testBit 255 i = decide (i < 8) := by
  by_cases h : i < 22
  · revert h
    revert i
    decide
  · rw [Nat.testBit_lt_two_pow (lt_of_lt_of_le (by norm_num : (255 : Nat) < 2 ^ 22)
      (Nat.pow_le_pow_right (by norm_num) (le_of_not_lt h)))]
    symm
    simp only [decide_eq_false_iff_not]
    omega

/-- The result of `dealign24b` fits in one byte. -/
theorem dealign24b_lt (v : Nat) : dealign24b v < 2 ^ 8 := by
  show ((_ &&& 0) >>> 16 ||| (_ &&& 255) >>> 0) < 2 ^ 8
  rw [Nat.and_zero, Nat.zero_shiftRight, Nat.zero_or, Nat.shiftRight_zero]
  exact Nat.and_lt_two_pow _ (by norm_num)

/-- C3: for `v < 2^24`, `dealign24b v` is the 8-bit value whose bit `i`
(for `i < 8`) is bit `3·i` of `v`. -/
theorem dealign24b_selects_every_third_bit (v : Nat) (hv : v < 2 ^ 24) :
    dealign24b v < 256 ∧ ∀ i < 8, (dealign24b v).testBit i = v.testBit (3 * i) := by
  refine ⟨by have := dealign24b_lt v; omega, ?_⟩
  intro i hi
  interval_cases i <;>
    simp [dealign24b, Nat.testBit_or, Nat.testBit_and, Nat.testBit_shiftRight,
          testBit_mask1a, testBit_mask1b, testBit_mask2a, testBit_mask2b,
          testBit_mask3a, testBit_mask3b, testBit_mask255]

/-- Witness for C3 at concrete input `v = 2^21 + 2^3 + 1` (bits 21, 3, 0
set), checking the hypothesis and the bit-selection at `i = 7`. -/
theorem dealign24b_selects_every_third_bit_witness :
    (2 ^ 21 + 2 ^ 3 + 1 : Nat) < 2 ^ 24 ∧
      (dealign24b (2 ^ 21 + 2 ^ 3 + 1)).testBit 7 = (2 ^ 21 + 2 ^ 3 + 1 : Nat).testBit (3 * 7) :=
  ⟨by norm_num,
   (dealign24b_selects_every_third_bit (2 ^ 21 + 2 ^ 3 + 1) (by norm_num)).2 7 (by norm_num)⟩

/-- C9: `dealign24b` depends only on the low 24 bits of its argument and
its result always lies in `[0, 256)`. -/
theorem dealign24b_mod_two_pow_24 (v : Nat) :
    dealign24b v = dealign24b (v % 2 ^ 24) ∧ dealign24b v < 256 := by
  constructor
  · simp only [dealign24b]
    rw [land_mod_two_pow_24 v 0b001000001000001000001000 (by norm_num),
        land_mod_two_pow_24 v 0b000001000001000001000001 (by norm_num)]
  · have := dealign24b_lt v
    omega

/-! ## Hierarchy parser (`parse_potree_hierarchy`, lines 109-132) -/

/-- Constant `BYTES_PER_NODE` from `constants.py`. -/
def BYTES_PER_NODE : Nat := 22

/-- Constant `POTREE_PROXY_NODE_TYPE` from `constants.py`. -/
def POTREE_PROXY_NODE_TYPE : Nat := 2

/-- Constant `NUM_POINTS_BEGIN_BYTE` from `constants.py`. -/
def NUM_POINTS_BEGIN_BYTE : Nat := 2

/-- Constant `NUM_POINTS_END_BYTE` from `constants.py`. -/
def NUM_POINTS_END_BYTE : Nat := 6

/-- Little-endian unsigned value of a byte list (first byte is least
significant). -/
def leNat : List Nat → Nat
  | [] => 0
  | b :: bs => b + 256 * leNat bs

/-- Little-endian two's-complement signed integer of width `w` bytes, the
value decoded by `struct.unpack` for format characters `i` (`w = 4`) and
`q` (`w = 8`) on a little-endian host. -/
def sIntLE (w : Nat) (bs : List Nat) : Int :=
  let u := leNat bs
  if u < 2 ^ (8 * w - 1) then (u : Int) else (u : Int) - 2 ^ (8 * w)

/-- `struct.unpack("i", bs)`: requires exactly 4 bytes, else raises. -/
def unpack_i (bs : List Nat) : Option Int :=
  if bs.length = 4 then some (sIntLE 4 bs) else none

/-- `struct.unpack("qq", bs)`: requires exactly 16 bytes, else raises. -/
def unpack_qq (bs : List Nat) : Option (Int × Int) :=
  if bs.length = 16 then some (sIntLE 8 (bs.take 8), sIntLE 8 (bs.drop 8)) else none

/-- The loop of `parse_potree_hierarchy`, one iteration of
`for begin_index in range(0, len(hierarchy_bytes), BYTES_PER_NODE)` per
unit of fuel (the fuel is only a structural-recursion device; callers
pass more fuel than the loop can consume).  Python slices clamp at the
end of the list, which `drop`/`take` model exactly; a short slice makes
`struct.unpack` raise, modelled by `none`. -/
def parseHierarchyLoop (hierarchy_bytes : List Nat) : Nat → Nat → Option (List (Int × Int × Int))
  | _, 0 => some []
  | begin_index, fuel + 1 =>
    if begin_index < hierarchy_bytes.length then
      let node_type := hierarchy_bytes.getD begin_index 0
      match unpack_i ((hierarchy_bytes.drop (begin_index + NUM_POINTS_BEGIN_BYTE)).take
          (NUM_POINTS_END_BYTE - NUM_POINTS_BEGIN_BYTE)),
        unpack_qq ((hierarchy_bytes.drop (begin_index + NUM_POINTS_END_BYTE)).take
          (BYTES_PER_NODE - NUM_POINTS_END_BYTE)) with
      | some num_points, some (byte_offset, byte_size) =>
        match parseHierarchyLoop hierarchy_bytes (begin_index + BYTES_PER_NODE) fuel with
        | some rest =>
          if node_type ≠ POTREE_PROXY_NODE_TYPE ∧ byte_size ≠ 0 then
            some ((num_points, byte_offset, byte_size) :: rest)
          else some rest
        | none => none
      | _, _ => none
    else some []

/-- Embedding of `parse_potree_hierarchy`
(`potree_brotli_compressed_pc_reader.py`, lines 109-132). -/
def parse_potree_hierarchy (hierarchy_bytes : List Nat) : Option (List (Int × Int × Int)) :=
  parseHierarchyLoop hierarchy_bytes 0 (hierarchy_bytes.length + 1)

/-- The tuple contributed by a single 22-byte hierarchy record, stated
the way claim C4 words it: emit `(num_points, byte_offset, byte_size)`
iff the node type (byte 0) is not 2 and the byte size (little-endian
signed 64-bit at bytes 14..22) is not 0. -/
def hierarchyRecordTuple (r : List Nat) : Option (Int × Int × Int) :=
  if r.getD 0 0 ≠ 2 ∧ sIntLE 8 ((r.drop 14).take 8) ≠ 0 then
    some (sIntLE 4 ((r.drop 2).take 4), sIntLE 8 ((r.drop 6).take 8),
          sIntLE 8 ((r.drop 14).take 8))
  else none

/-- The 22-byte records of a hierarchy byte string, in order. -/
def chunks22 (bs : List Nat) : List (List Nat) :=
  (List.range ((bs.length + 21) / 22)).map (fun i => (bs.drop (22 * i)).take 22)

/-- Unfolding `chunks22` one record at a time. -/
theorem chunks22_cons (bs : List Nat) (h : bs ≠ []) :
    chunks22 bs = bs.take 22 :: chunks22 (bs.drop 22) := by
  unfold chunks22
  have hlen : 0 < bs.length := List.length_pos.mpr h
  have hc : (bs.length + 21) / 22 = ((bs.drop 22).length + 21) / 22 + 1 := by
    simp only [List.length_drop]
    omega
  rw [hc, List.range_succ_eq_map, List.map_cons, List.map_map]
  simp only [Nat.mul_zero, List.drop_zero, List.cons.injEq, true_and]
  apply List.map_congr_left
  intro i _
  simp only [Function.comp_apply, List.drop_drop, Nat.succ_eq_add_one]
  have e : 22 * (i + 1) = 22 + 22 * i := by ring
  rw [e]
/-- The hierarchy loop's result does not depend on the fuel, as long as
the fuel exceeds the number of bytes left to scan. -/
theorem parseHierarchyLoop_fuel (f1 : Nat) :
    ∀ (f2 : Nat) (hb : List Nat) (k : Nat), hb.length - k < f1 → hb.length - k < f2 →
      parseHierarchyLoop hb k f1 = parseHierarchyLoop hb k f2 := by
  induction f1 with
  | zero =>
    intro f2 hb k h1 _
    omega
  | succ f1 ih =>
    intro f2 hb k h1 h2
    match f2 with
    | 0 => omega
    | f2 + 1 =>
      by_cases hk : k < hb.length
      · have hrec := ih f2 hb (k + BYTES_PER_NODE)
          (by simp only [BYTES_PER_NODE]; omega) (by simp only [BYTES_PER_NODE]; omega)
        simp only [parseHierarchyLoop]
        rw [if_pos hk, if_pos hk]
        simp only [hrec]
      · simp only [parseHierarchyLoop]
        rw [if_neg hk, if_neg hk]

/-- Scanning from index `k` is the same as scanning the `k`-th suffix
from index `0`. -/
theorem parseHierarchyLoop_drop (fuel : Nat) :
    ∀ (hb : List Nat) (k : Nat), hb.length - k < fuel →
      parseHierarchyLoop hb k fuel = parseHierarchyLoop (hb.drop k) 0 fuel := by
  induction fuel with
  | zero =>
    intro hb k h
    omega
  | succ fuel ih =>
    intro hb k h
    by_cases hk : k < hb.length
    · have hk2 : 0 < (hb.drop k).length := by
        simp only [List.length_drop]
        omega
      have e1 : parseHierarchyLoop hb (k + BYTES_PER_NODE) fuel =
          parseHierarchyLoop (hb.drop (k + BYTES_PER_NODE)) 0 fuel :=
        ih hb (k + BYTES_PER_NODE) (by simp only [BYTES_PER_NODE]; omega)
      have e2 : parseHierarchyLoop (hb.drop k) BYTES_PER_NODE fuel =
          parseHierarchyLoop ((hb.drop k).drop BYTES_PER_NODE) 0 fuel :=
        ih (hb.drop k) BYTES_PER_NODE
          (by simp only [BYTES_PER_NODE, List.length_drop]; omega)
      simp only [parseHierarchyLoop]
      rw [if_pos hk, if_pos hk2]
      simp only [e1, e2, List.drop_drop, Nat.zero_add, Nat.add_zero,
        List.getD_eq_getElem?_getD, List.getElem?_drop]
    · have hk2 : ¬ 0 < (hb.drop k).length := by
        simp only [List.length_drop]
        omega
      simp only [parseHierarchyLoop]
      rw [if_neg hk, if_neg hk2]
/-- Induction core of the C4 refinement: on a hierarchy byte string
whose length is a multiple of 22, the parser emits exactly the
per-record tuples of the non-proxy, non-zero-size records. -/
theorem parseHierarchy_records_aux (n : Nat) :
    ∀ hb : List Nat, hb.length ≤ n → hb.length % 22 = 0 →
      parse_potree_hierarchy hb = some ((chunks22 hb).filterMap hierarchyRecordTuple) := by
  induction n with
  | zero =>
    intro hb hle _
    have he : hb = [] := List.length_eq_zero.mp (by omega)
    subst he
    rfl
  | succ n ih =>
    intro hb hle h
    rcases eq_or_ne hb [] with he | he
    · subst he
      rfl
    · have hlen : 0 < hb.length := List.length_pos.mpr he
      have h22 : 22 ≤ hb.length := by omega
      have hi : unpack_i ((hb.drop 2).take 4) = some (sIntLE 4 ((hb.drop 2).take 4)) := by
        unfold unpack_i
        rw [if_pos]
        simp only [List.length_take, List.length_drop]
        omega
      have hq : unpack_qq ((hb.drop 6).take 16) =
          some (sIntLE 8 ((hb.drop 6).take 8), sIntLE 8 ((hb.drop 14).take 8)) := by
        unfold unpack_qq
        rw [if_pos]
        · simp [List.take_take, List.drop_take, List.drop_drop]
        · simp only [List.length_take, List.length_drop]
          omega
      have hrec : parseHierarchyLoop hb BYTES_PER_NODE hb.length =
          some ((chunks22 (hb.drop 22)).filterMap hierarchyRecordTuple) := by
        rw [parseHierarchyLoop_drop hb.length hb BYTES_PER_NODE
          (by simp only [BYTES_PER_NODE]; omega)]
        rw [parseHierarchyLoop_fuel hb.length ((hb.drop BYTES_PER_NODE).length + 1)
          (hb.drop BYTES_PER_NODE) 0
          (by simp only [BYTES_PER_NODE, List.length_drop]; omega)
          (by simp only [BYTES_PER_NODE, List.length_drop]; omega)]
        have hb22 : (BYTES_PER_NODE : Nat) = 22 := rfl
        rw [hb22]
        exact ih (hb.drop 22)
          (by simp only [List.length_drop]; omega)
          (by simp only [List.length_drop]; omega)
      have htup : hierarchyRecordTuple (hb.take 22) =
          if hb.getD 0 0 ≠ 2 ∧ sIntLE 8 ((hb.drop 14).take 8) ≠ 0 then
            some (sIntLE 4 ((hb.drop 2).take 4), sIntLE 8 ((hb.drop 6).take 8),
                  sIntLE 8 ((hb.drop 14).take 8))
          else none := by
        unfold hierarchyRecordTuple
        have e0 : (hb.take 22).getD 0 0 = hb.getD 0 0 := by
          simp only [List.getD_eq_getElem?_getD]
          rw [List.getElem?_take_of_lt (by norm_num)]
        have e14 : ((hb.take 22).drop 14).take 8 = (hb.drop 14).take 8 := by
          simp [List.drop_take, List.take_take]
        have e2 : ((hb.take 22).drop 2).take 4 = (hb.drop 2).take 4 := by
          simp [List.drop_take, List.take_take]
        have e6 : ((hb.take 22).drop 6).take 8 = (hb.drop 6).take 8 := by
          simp [List.drop_take, List.take_take]
        rw [e0, e14, e2, e6]
      unfold parse_potree_hierarchy
      simp only [parseHierarchyLoop]
      rw [if_pos (by omega : 0 < hb.length)]
      simp only [NUM_POINTS_BEGIN_BYTE, NUM_POINTS_END_BYTE, BYTES_PER_NODE,
        POTREE_PROXY_NODE_TYPE, Nat.zero_add]
      simp only [hi, hq]
      have hrec' : parseHierarchyLoop hb 22 hb.length =
          some ((chunks22 (hb.drop 22)).filterMap hierarchyRecordTuple) := by
        have hb22 : (22 : Nat) = BYTES_PER_NODE := rfl
        rw [hb22]
        exact hrec
      simp only [hrec']
      rw [chunks22_cons hb he, List.filterMap_cons, htup]
      by_cases hc : hb.getD 0 0 ≠ 2 ∧ sIntLE 8 ((hb.drop 14).take 8) ≠ 0
      · rw [if_pos hc, if_pos hc]
      · rw [if_neg hc, if_neg hc]

/-- C4: on a hierarchy byte string whose length is a multiple of 22,
`parse_potree_hierarchy` succeeds and returns, preserving record order,
exactly one `(num_points, byte_offset, byte_size)` tuple per 22-byte
record whose node type (byte 0) is not 2 and whose byte size
(little-endian signed 64-bit at bytes 14..22) is not 0; `num_points` is
the little-endian signed 32-bit at bytes 2..6 and `byte_offset` the
little-endian signed 64-bit at bytes 6..14. -/
theorem parse_potree_hierarchy_records (hb : List Nat) (h : hb.length % 22 = 0) :
    parse_potree_hierarchy hb = some ((chunks22 hb).filterMap hierarchyRecordTuple) :=
  parseHierarchy_records_aux hb.length hb le_rfl h
/-- Witness for C4 on a concrete 44-byte hierarchy: a proxy record
(type 2) followed by a normal record with `num_points = 3`,
`byte_offset = 7`, `byte_size = 5`; only the latter is emitted. -/
theorem parse_potree_hierarchy_records_witness :
    ([2, 0, 1, 0, 0, 0, 0, 0, 0, 0, 0, 0, 0, 0, 9, 0, 0, 0, 0, 0, 0, 0,
      0, 0, 3, 0, 0, 0, 7, 0, 0, 0, 0, 0, 0, 0, 5, 0, 0, 0, 0, 0, 0, 0] :
        List Nat).length % 22 = 0 ∧
      parse_potree_hierarchy
        [2, 0, 1, 0, 0, 0, 0, 0, 0, 0, 0, 0, 0, 0, 9, 0, 0, 0, 0, 0, 0, 0,
         0, 0, 3, 0, 0, 0, 7, 0, 0, 0, 0, 0, 0, 0, 5, 0, 0, 0, 0, 0, 0, 0] =
        some [(3, 7, 5)] := by
  constructor
  · decide
  · rw [parse_potree_hierarchy_records _ (by decide)]
    decide
/-! ## Morton position and color decoders
(`read_node_positions_data`, lines 58-84; `read_node_rgb_data`,
lines 87-106) -/

/-- Constant `MIN_BYTES_FOR_MORTON_CODE` from `constants.py`. -/
def MIN_BYTES_FOR_MORTON_CODE : Nat := 16

/-- Constant `BYTES_FOR_RGB` from `constants.py`. -/
def BYTES_FOR_RGB : Nat := 8

/-- `np.frombuffer(bs, dtype=uint32(LE), count)`: raises unless the
buffer holds at least `4 * count` bytes, else yields the first `count`
little-endian 32-bit words. -/
def wordsLE (bs : List Nat) (count : Nat) : Option (List Nat) :=
  if 4 * count ≤ bs.length then
    some ((List.range count).map (fun i => leNat ((bs.drop (4 * i)).take 4)))
  else none

/-- The raw integer channels recovered from one 8-byte rgb record, named
`(mc_1, mc_0)` as in the source (lines 99-102).  `<<<` on numpy `uint32`
wraps, hence the explicit `% 2^32`. -/
def rgbChannels (mc_1 mc_0 : Nat) : Nat × Nat × Nat :=
  let cross := (mc_1 >>> 24) ||| ((mc_0 <<< 8) % 2 ^ 32)
  let r := dealign24b ((mc_1 &&& 0xFFFFFF) >>> 0) ||| (dealign24b (cross >>> 0) <<< 8)
  let g := dealign24b ((mc_1 &&& 0xFFFFFF) >>> 1) ||| (dealign24b (cross >>> 1) <<< 8)
  let b := dealign24b ((mc_1 &&& 0xFFFFFF) >>> 2) ||| (dealign24b (cross >>> 2) <<< 8)
  (r, g, b)

/-- Embedding of `read_node_rgb_data` (lines 87-106): reinterpret the
buffer as `2 × num_points` little-endian 32-bit words, recover the
channels per record, then apply `np.where(c > 255, c/256, c)` — numpy's
`/` is true division, producing a float column, modelled exactly by
`ℚ`. -/
def read_node_rgb_data (morton_code_bytes : List Nat) (num_points : Nat) :
    Option (List (ℚ × ℚ × ℚ)) :=
  (wordsLE morton_code_bytes (num_points * 2)).map (fun ws =>
    (List.range num_points).map (fun i =>
      let t := rgbChannels (ws.getD (2 * i) 0) (ws.getD (2 * i + 1) 0)
      ((if 255 < t.1 then (t.1 : ℚ) / 256 else (t.1 : ℚ)),
       (if 255 < t.2.1 then (t.2.1 : ℚ) / 256 else (t.2.1 : ℚ)),
       (if 255 < t.2.2 then (t.2.2 : ℚ) / 256 else (t.2.2 : ℚ)))))

/-- The result of `read_node_positions_data`: the `None` sentinel, a
numpy exception, or the decoded per-point integer columns. -/
inductive PosResult where
  | sentinel : PosResult
  | error : PosResult
  | ok : List (Nat × Nat × Nat) → PosResult
deriving DecidableEq

/-- The low 16 bits of one axis from one 16-byte position record
(source lines 74-76); `sh` is the per-axis pre-shift (0 = x, 1 = y,
2 = z). -/
def posLow (mc_3 mc_2 : Nat) (sh : Nat) : Nat :=
  let cross := (mc_3 >>> 24) ||| ((mc_2 <<< 8) % 2 ^ 32)
  dealign24b ((mc_3 &&& 0xFFFFFF) >>> sh) ||| (dealign24b (cross >>> sh) <<< 8)

/-- The high 16 bits of one axis from one 16-byte position record
(source lines 78-83). -/
def posHigh (mc_1 mc_0 : Nat) (sh : Nat) : Nat :=
  let cross := (mc_1 >>> 24) ||| ((mc_0 <<< 8) % 2 ^ 32)
  (dealign24b ((mc_1 &&& 0xFFFFFF) >>> sh) <<< 16) ||| (dealign24b (cross >>> sh) <<< 24)

/-- Embedding of `read_node_positions_data` (lines 58-84): `None` when
the buffer is shorter than 16 bytes; otherwise reinterpret it as
`4 × num_points` little-endian 32-bit words (numpy raises when the
buffer is too small for that, modelled by `.error`), name the four
per-record words `mc_1, mc_0, mc_3, mc_2` in encounter order, decode
the low 16 bits of each axis, and OR in the high bits iff any `mc_1`
or any `mc_2` in the whole block is non-zero. -/
def read_node_positions_data (morton_code_bytes : List Nat) (num_points : Nat) : PosResult :=
  if morton_code_bytes.length < MIN_BYTES_FOR_MORTON_CODE then .sentinel
  else
    match wordsLE morton_code_bytes (num_points * 4) with
    | none => .error
    | some ws =>
      let recs := (List.range num_points).map (fun i =>
        (ws.getD (4 * i) 0, ws.getD (4 * i + 1) 0, ws.getD (4 * i + 2) 0, ws.getD (4 * i + 3) 0))
      let highNeeded := recs.any (fun r => r.1 ≠ 0) || recs.any (fun r => r.2.2.2 ≠ 0)
      .ok (recs.map (fun r =>
        let lo := fun sh => posLow r.2.2.1 r.2.2.2 sh
        let hi := fun sh => if highNeeded then posHigh r.1 r.2.1 sh else 0
        (lo 0 ||| hi 0, lo 1 ||| hi 1, lo 2 ||| hi 2)))

/-- C10: `read_node_positions_data` returns the `None` sentinel exactly
when the byte slice is shorter than 16 bytes, independent of
`num_points`; and for `num_points > 1`, a slice of length in
`[16, 16·num_points)` is not the sentinel but a numpy reinterpretation
failure. -/
theorem read_node_positions_data_sentinel (bs : List Nat) (n : Nat) :
    (read_node_positions_data bs n = .sentinel ↔ bs.length < 16) ∧
      (1 < n → 16 ≤ bs.length → bs.length < 16 * n →
        read_node_positions_data bs n = .error) := by
  constructor
  · unfold read_node_positions_data
    by_cases h : bs.length < MIN_BYTES_FOR_MORTON_CODE
    · rw [if_pos h]
      simp only [MIN_BYTES_FOR_MORTON_CODE] at h
      simp [h]
    · rw [if_neg h]
      simp only [MIN_BYTES_FOR_MORTON_CODE] at h
      constructor
      · intro hcontra
        match hw : wordsLE bs (n * 4) with
        | none => rw [hw] at hcontra; exact absurd hcontra (by simp)
        | some ws => rw [hw] at hcontra; exact absurd hcontra (by simp)
      · intro hlt
        omega
  · intro hn h16 hlt
    unfold read_node_positions_data
    rw [if_neg (by simp only [MIN_BYTES_FOR_MORTON_CODE]; omega)]
    have hw : wordsLE bs (n * 4) = none := by
      unfold wordsLE
      rw [if_neg]
      omega
    rw [hw]

/-- Witness for C10 at a 16-byte buffer with `num_points = 2`: not the
sentinel, but a reinterpretation failure. -/
theorem read_node_positions_data_sentinel_witness :
    (1 : Nat) < 2 ∧ (16 : Nat) ≤ 16 ∧ (16 : Nat) < 16 * 2 ∧
      read_node_positions_data [0, 0, 0, 0, 0, 0, 0, 0, 0, 0, 0, 0, 0, 0, 0, 0] 2 =
        .error := by
  refine ⟨by norm_num, by norm_num, by norm_num, ?_⟩
  exact (read_node_positions_data_sentinel
    [0, 0, 0, 0, 0, 0, 0, 0, 0, 0, 0, 0, 0, 0, 0, 0] 2).2
    (by norm_num) (by simp) (by simp)
/-- Element lookup in the word list produced by `wordsLE`. -/
theorem wordsLE_getD (bs : List Nat) (count j : Nat) (hj : j < count) :
    ((List.range count).map (fun i => leNat ((bs.drop (4 * i)).take 4))).getD j 0 =
      leNat ((bs.drop (4 * j)).take 4) := by
  simp [List.getD_eq_getElem?_getD, List.getElem?_map, List.getElem?_range, hj]

/-- C8 (amended): each channel recovered by `read_node_rgb_data` is
normalized independently with numpy's true division: a channel value
`v ≤ 255` is passed through, a channel value `v > 255` becomes the
rational `v / 256` (not the integer quotient). -/
theorem read_node_rgb_data_true_division (bs : List Nat) (n : Nat) (h : 8 * n ≤ bs.length) :
    read_node_rgb_data bs n =
      some ((List.range n).map (fun i =>
        let t := rgbChannels (leNat ((bs.drop (8 * i)).take 4))
                             (leNat ((bs.drop (8 * i + 4)).take 4))
        ((if 255 < t.1 then (t.1 : ℚ) / 256 else (t.1 : ℚ)),
         (if 255 < t.2.1 then (t.2.1 : ℚ) / 256 else (t.2.1 : ℚ)),
         (if 255 < t.2.2 then (t.2.2 : ℚ) / 256 else (t.2.2 : ℚ))))) := by
  unfold read_node_rgb_data wordsLE
  rw [if_pos (by omega : 4 * (n * 2) ≤ bs.length)]
  simp only [Option.map_some']
  congr 1
  apply List.map_congr_left
  intro i hi
  have hi' : i < n := List.mem_range.mp hi
  have g1 : (2 * i) < n * 2 := by omega
  have g2 : (2 * i + 1) < n * 2 := by omega
  rw [wordsLE_getD bs (n * 2) (2 * i) g1, wordsLE_getD bs (n * 2) (2 * i + 1) g2]
  have e1 : 4 * (2 * i) = 8 * i := by ring
  have e2 : 4 * (2 * i + 1) = 8 * i + 4 := by ring
  rw [e1, e2]

/-- Counterexample to C8 as stated: on the 8-byte record whose first
word is `0x01008240`, the recovered red channel is `300 > 255`, and the
emitted value is `300/256 = 75/64`, not the integer quotient
`300 // 256 = 1`. -/
theorem read_node_rgb_integer_divide_counterexample :
    (rgbChannels 16810560 0).1 = 300 ∧
      read_node_rgb_data [64, 130, 0, 1, 0, 0, 0, 0] 1 = some [((75 : ℚ) / 64, 0, 0)] ∧
      ((75 : ℚ) / 64) ≠ ((300 / 256 : Nat) : ℚ) := by
  refine ⟨by decide, ?_, by norm_num⟩
  rw [read_node_rgb_data_true_division [64, 130, 0, 1, 0, 0, 0, 0] 1 (by norm_num)]
  have ht : rgbChannels (leNat [64, 130, 0, 1]) (leNat [0, 0, 0, 0]) = (300, 0, 0) := by
    decide
  norm_num [List.range_succ, ht]

/-- Witness for the amended C8 on the same concrete record. -/
theorem read_node_rgb_data_true_division_witness :
    8 * 1 ≤ ([64, 130, 0, 1, 0, 0, 0, 0] : List Nat).length ∧
      read_node_rgb_data [64, 130, 0, 1, 0, 0, 0, 0] 1 ≠ none := by
  refine ⟨by norm_num, ?_⟩
  rw [read_node_rgb_data_true_division [64, 130, 0, 1, 0, 0, 0, 0] 1 (by norm_num)]
  simp
/-! ## Node decoder and BROTLI reader entry point
(`PotreeBrotliCompressedPointCloudReader`, lines 135-232, and
`PotreePointCloudReaderBase.TYPES_MAPPING`, lines 12-19 of
`point_cloud_reader_base.py`) -/

/-- Constant `POSITION_ATTRIBUTE` from `constants.py`. -/
def POSITION_ATTRIBUTE : String := "position"

/-- Modelled from the spec: `RGB_ATTRIBUTE` is imported by
`potree_brotli_compressed_pc_reader.py` but missing from `constants.py`
in the repository snapshot (which only defines `RGBA_ATTRIBUTE`); per
spec §3 the special attribute names are `position` and `rgb`. -/
def RGB_ATTRIBUTE : String := "rgb"

/-- The numpy element types appearing in `TYPES_MAPPING`. -/
inductive NumpyType where
  | uint8 : NumpyType
  | uint16 : NumpyType
  | uint32 : NumpyType
  | int16 : NumpyType
  | float32 : NumpyType
  | float64 : NumpyType
deriving DecidableEq

/-- Embedding of `PotreePointCloudReaderBase.TYPES_MAPPING`
(`point_cloud_reader_base.py`, lines 12-19); a missing key is a Python
`KeyError`, modelled by `none`. -/
def TYPES_MAPPING (key : String) : Option NumpyType :=
  if key = "uint8" then some .uint8
  else if key = "uint16" then some .uint16
  else if key = "uint32" then some .uint32
  else if key = "int16" then some .int16
  else if key = "float" then some .float32
  else if key = "double" then some .float64
  else none

/-- One entry of `metadata["attributes"]`: the `name`, `type` and `size`
keys used by the readers. -/
structure AttributeMetadata where
  name : String
  type_tag : String
  size : Nat
deriving DecidableEq

/-- One recorded column assignment
`data[attribute][row_start : row_start + num_points] = ...` of the node
decoder, together with the node-local byte cursor at which the
attribute's bytes were read. -/
structure WriteEvent where
  attr_name : String
  row_start : Nat
  num_points : Nat
  byte_offset : Nat
deriving DecidableEq

/-- Errors of the BROTLI reader model. -/
inductive ReadError where
  | unsupportedVersion : ReadError
  | unsupportedEncoding : ReadError
  | structError : ReadError
  | keyError : String → ReadError
  | pointsMismatch : ReadError
  | typeError : ReadError
deriving DecidableEq

/-- The inner attribute loop of `_read_potree_octree` (lines 182-201)
for one node: for each attribute in schema order, emit the write event
for this attribute, advance the node-local byte cursor by
`read_bytes_num`, and — as in the source, where the statement is inside
the attribute loop — advance `current_index` by `num_points` after
EVERY attribute.  A generic attribute looks its numpy dtype up in
`TYPES_MAPPING` keyed by the attribute's NAME (line 193), raising
`KeyError` when the name is absent. -/
def decodeNodeAttributes (num_points : Nat) :
    List AttributeMetadata → Nat → Nat → Except ReadError (List WriteEvent × Nat)
  | [], current_index, _ => .ok ([], current_index)
  | a :: rest, current_index, attributes_byte_offset =>
    if a.name = POSITION_ATTRIBUTE then
      let ev : WriteEvent := ⟨POSITION_ATTRIBUTE, current_index, num_points,
        attributes_byte_offset⟩
      match decodeNodeAttributes num_points rest (current_index + num_points)
          (attributes_byte_offset + num_points * MIN_BYTES_FOR_MORTON_CODE) with
      | .ok (evs, c) => .ok (ev :: evs, c)
      | .error e => .error e
    else if a.name = RGB_ATTRIBUTE then
      let ev : WriteEvent := ⟨RGB_ATTRIBUTE, current_index, num_points,
        attributes_byte_offset⟩
      match decodeNodeAttributes num_points rest (current_index + num_points)
          (attributes_byte_offset + num_points * BYTES_FOR_RGB) with
      | .ok (evs, c) => .ok (ev :: evs, c)
      | .error e => .error e
    else
      match TYPES_MAPPING a.name with
      | none => .error (.keyError a.name)
      | some _ =>
        let ev : WriteEvent := ⟨a.name, current_index, num_points, attributes_byte_offset⟩
        match decodeNodeAttributes num_points rest (current_index + num_points)
            (attributes_byte_offset + a.size * num_points) with
        | .ok (evs, c) => .ok (ev :: evs, c)
        | .error e => .error e

/-- The node loop of `_read_potree_octree` (lines 176-202).  The numpy
value semantics (Brotli decompression, `frombuffer`, slice assignment)
are abstracted away: the model records, in program order, which rows of
which attribute's column each node writes, and the final value of
`current_index`.  `num_points` comes from the hierarchy as a Python
int; a negative value would make every slice empty, modelled by
`Int.toNat`. -/
def read_potree_octree (attributes : List AttributeMetadata) :
    List (Int × Int × Int) → Nat → Except ReadError (List WriteEvent × Nat)
  | [], current_index => .ok ([], current_index)
  | (num_points, _, _) :: rest, current_index =>
    match decodeNodeAttributes num_points.toNat attributes current_index 0 with
    | .error e => .error e
    | .ok (evs, c) =>
      match read_potree_octree attributes rest c with
      | .ok (evs', c') => .ok (evs ++ evs', c')
      | .error e => .error e

/-- The keys of the `defaultdict` after decoding: one per distinct
attribute name touched by a write. -/
def dictKeyCount (events : List WriteEvent) : Nat :=
  (events.map (fun e => e.attr_name)).dedup.length

/-- The `metadata.json` fields consumed by the BROTLI reader. -/
structure BrotliMetadata where
  version : String
  encoding : String
  points : Nat
  scale : List ℚ
  offset : List ℚ
  attributes : List AttributeMetadata

/-- Embedding of `PotreeBrotliCompressedPointCloudReader.read_point_cloud`
(lines 204-232): validate version and encoding, parse the hierarchy,
decode the octree, then compare `len(points)` — the NUMBER OF KEYS of
the decoded `defaultdict` — against `metadata["points"]` (line 226).
The final `return points * scale + offset` multiplies the whole dict by
an ndarray, which Python rejects with a `TypeError`, modelled by
`.error .typeError`. -/
def brotli_read_point_cloud (meta : BrotliMetadata) (hierarchy_bytes : List Nat) :
    Except ReadError (List WriteEvent × Nat) :=
  if meta.version ≠ "2.0" then .error .unsupportedVersion
  else if meta.encoding ≠ "BROTLI" then .error .unsupportedEncoding
  else
    match parse_potree_hierarchy hierarchy_bytes with
    | none => .error .structError
    | some data_to_read =>
      match read_potree_octree meta.attributes data_to_read 0 with
      | .error e => .error e
      | .ok (events, _) =>
        if dictKeyCount events ≠ meta.points then .error .pointsMismatch
        else .error .typeError
deriving instance DecidableEq for Except

/-- C1 (evaluation at the failing input): with two generic attributes
and a single node of one point, the node decoder advances
`current_index` after EVERY attribute, so the second attribute of the
node writes rows `[1, 2)` while the first writes `[0, 1)`, and the
cursor ends at `2` — twice the node's `num_points`. -/
theorem read_potree_octree_cursor_bug :
    read_potree_octree
        [⟨"uint8", "uint8", 1⟩, ⟨"uint16", "uint16", 2⟩] [(1, 0, 5)] 0 =
      .ok ([⟨"uint8", 0, 1, 0⟩, ⟨"uint16", 1, 1, 1⟩], 2) := by
  decide

/-- C2 (evaluation at the failing input): one attribute, one node of
two points, `metadata.points = 2`.  The sum of node point counts equals
`metadata.points`, yet `read_point_cloud` raises the points-mismatch
error, because line 226 compares `len(points)` — the number of dict
keys, here 1 — against `metadata.points`. -/
theorem brotli_points_mismatch_bug :
    parse_potree_hierarchy
        [0, 0, 2, 0, 0, 0, 0, 0, 0, 0, 0, 0, 0, 0, 5, 0, 0, 0, 0, 0, 0, 0] =
      some [(2, 0, 5)] ∧
    ([(2, 0, 5)].map (fun t : Int × Int × Int => t.1)).sum = ((2 : Nat) : Int) ∧
      brotli_read_point_cloud
        ⟨"2.0", "BROTLI", 2, [1, 1, 1], [0, 0, 0], [⟨"uint8", "uint8", 1⟩]⟩
        [0, 0, 2, 0, 0, 0, 0, 0, 0, 0, 0, 0, 0, 0, 5, 0, 0, 0, 0, 0, 0, 0] =
      .error .pointsMismatch := by
  refine ⟨?_, by decide, ?_⟩
  · rw [parse_potree_hierarchy_records _ (by decide)]
    decide
  · unfold brotli_read_point_cloud
    rw [parse_potree_hierarchy_records _ (by decide)]
    decide

/-- C5 (evaluation at the failing input): an attribute named
`intensity` with the known type tag `uint16` makes the node decoder
raise `KeyError`, because line 193 looks the dtype up by the
attribute's NAME, not its type tag. -/
theorem types_mapping_keyed_by_name_bug :
    TYPES_MAPPING "uint16" = some .uint16 ∧
      read_potree_octree [⟨"intensity", "uint16", 2⟩] [(1, 0, 5)] 0 =
        .error (.keyError "intensity") := by
  constructor
  · decide
  · decide

/-- C6 (evaluation at a well-formed input): with a consistent metadata
(one attribute, one node, matching point count), the entry point still
fails: `return points * scale + offset` (line 232) multiplies the whole
dict by an ndarray, a Python `TypeError`, instead of transforming only
the `position` column and returning the mapping. -/
theorem brotli_return_type_error :
    brotli_read_point_cloud
        ⟨"2.0", "BROTLI", 1, [1, 1, 1], [0, 0, 0], [⟨"uint8", "uint8", 1⟩]⟩
        [0, 0, 1, 0, 0, 0, 0, 0, 0, 0, 0, 0, 0, 0, 5, 0, 0, 0, 0, 0, 0, 0] =
      .error .typeError := by
  unfold brotli_read_point_cloud
  rw [parse_potree_hierarchy_records _ (by decide)]
  decide

/-! ## Uncompressed (DEFAULT) reader
(`potree_uncompressed_pc_reader.py`) -/

/-- Embedding of `calculate_bytes_per_point`
(`potree_uncompressed_pc_reader.py`, lines 13-27). -/
def calculate_bytes_per_point (attributes : List AttributeMetadata) : Nat :=
  attributes.foldl (fun acc a => acc + a.size) 0

/-- Embedding of
`PotreeUncompressedPointCloudReader._check_potree_data_encoding`
(lines 49-56): raises unless the metadata encoding is `DEFAULT`. -/
def check_potree_data_encoding_default (encoding : String) : Except ReadError Unit :=
  if encoding ≠ "DEFAULT" then .error .unsupportedEncoding else .ok ()

/-- The record loop of the DEFAULT reader (lines 71-79): read the first
12 bytes of each record as three little-endian signed 32-bit integers,
apply `value × scale + offset` per axis, then seek to the next record.
A read of fewer than 12 bytes (numpy `frombuffer` failure at EOF) is
modelled as `.error .structError`; the relative seek lands at
`cursor + bytes_per_point` (the model assumes `bytes_per_point ≥ 12`,
as in any schema that contains the 12-byte position attribute). -/
def uncompressedLoop (octree : List Nat) (bytes_per_point : Nat) (scale offset : List ℚ) :
    Nat → Nat → Except ReadError (List (ℚ × ℚ × ℚ))
  | 0, _ => .ok []
  | n + 1, cursor =>
    if cursor + 12 ≤ octree.length then
      let c0 := sIntLE 4 ((octree.drop cursor).take 4)
      let c1 := sIntLE 4 ((octree.drop (cursor + 4)).take 4)
      let c2 := sIntLE 4 ((octree.drop (cursor + 8)).take 4)
      match uncompressedLoop octree bytes_per_point scale offset n (cursor + bytes_per_point) with
      | .ok ps => .ok (((c0 : ℚ) * scale.getD 0 0 + offset.getD 0 0,
                        (c1 : ℚ) * scale.getD 1 0 + offset.getD 1 0,
                        (c2 : ℚ) * scale.getD 2 0 + offset.getD 2 0) :: ps)
      | .error e => .error e
    else .error .structError

/-- Embedding of `PotreeUncompressedPointCloudReader.read_point_cloud`
(lines 58-80): it validates ONLY the format version — the class defines
`_check_potree_data_encoding` but `read_point_cloud` never invokes it —
then reads `metadata.points` strided records from `octree.bin`. -/
def uncompressed_read_point_cloud (meta : BrotliMetadata) (octree : List Nat) :
    Except ReadError (List (ℚ × ℚ × ℚ)) :=
  if meta.version ≠ "2.0" then .error .unsupportedVersion
  else
    uncompressedLoop octree (calculate_bytes_per_point meta.attributes)
      meta.scale meta.offset meta.points 0

/-- C7 (evaluation at the failing input): metadata with version `2.0`
and encoding `BROTLI`.  The encoding checker itself would raise, but
`read_point_cloud` never calls it: the call decodes the point data and
returns it, raising no unsupported-encoding error. -/
theorem uncompressed_encoding_never_checked :
    check_potree_data_encoding_default "BROTLI" = .error .unsupportedEncoding ∧
      uncompressed_read_point_cloud
          ⟨"2.0", "BROTLI", 1, [1, 1, 1], [10, 10, 10], [⟨"position", "int32", 28⟩]⟩
          [1, 0, 0, 0, 2, 0, 0, 0, 3, 0, 0, 0,
           0, 0, 0, 0, 0, 0, 0, 0, 0, 0, 0, 0, 0, 0, 0, 0] =
        .ok [(11, 12, 13)] := by
  constructor
  · decide
  · simp +decide only [uncompressed_read_point_cloud, uncompressedLoop,
      calculate_bytes_per_point, sIntLE, leNat]
    norm_num
